import Mathlib

/-!
Verification of the reup-tool publish pipeline against its specification.

The definitions below are shallow embeddings of the Python source:
* `src/autobot.py` — step-set sanitization, render decision, pipeline
  orchestration, sequential credential rotation, API upload driver;
* `src/tiktok_uploader/tiktok.py` — chunked upload engine.

Machine-level effects (HTTP, threads, the file system) are modelled by
explicit oracles and event traces; numeric values use `Nat`/`Int`/`Rat`.
-/

set_option maxRecDepth 2000

namespace ReupTool

/-! ## Step sets (`_sanitize_pipeline_steps`, autobot.py lines 112-142) -/

/-- A fully populated step set: the four booleans of the pipeline. -/
structure StepFlags where
  scan : Bool
  download : Bool
  render : Bool
  upload : Bool
  deriving DecidableEq, Repr, Fintype

/-- A partial flag map over the four keys: `none` models a missing key,
`some b` a present value already coerced by Python's `bool(...)`. -/
structure StepsInput where
  scan : Option Bool
  download : Option Bool
  render : Option Bool
  upload : Option Bool
  deriving DecidableEq, Repr, Fintype

/-- Source function `_default_pipeline_steps` (autobot.py lines 112-118). -/
def default_pipeline_steps : StepFlags :=
  { scan := true, download := true, render := true, upload := true }

/-- Source function `_sanitize_pipeline_steps` (autobot.py lines 121-142): seed the defaults,
override from the input when it is a dict, then apply the four dependency
rules in source order. `none` at the top models a non-dict argument. -/
def sanitize_pipeline_steps (inp : Option StepsInput) : StepFlags :=
  let d0 := default_pipeline_steps
  let d1 : StepFlags :=
    match inp with
    | none => d0
    | some m =>
      { scan := m.scan.getD d0.scan
        download := m.download.getD d0.download
        render := m.render.getD d0.render
        upload := m.upload.getD d0.upload }
  let d2 := if d1.upload then { d1 with render := true, download := true } else d1
  let d3 := if d2.render && !d2.download then { d2 with download := true } else d2
  let d4 := if !d3.render then { d3 with upload := false } else d3
  if !d4.download then { d4 with render := false, upload := false } else d4

/-- The four §3 invariants on a step set. -/
def stepInvariants (s : StepFlags) : Prop :=
  (s.upload → s.render ∧ s.download) ∧
  (s.render → s.download) ∧
  (!s.render → !s.upload) ∧
  (!s.download → !s.render ∧ !s.upload)

instance (s : StepFlags) : Decidable (stepInvariants s) := by
  unfold stepInvariants; infer_instance

/-- View a fully populated step set as the (total) flag map it serialises to,
for re-running sanitization on an output. -/
def StepFlags.toInput (s : StepFlags) : StepsInput :=
  { scan := some s.scan
    download := some s.download
    render := some s.render
    upload := some s.upload }

/-! ## Chunked upload engine (`upload_to_tiktok_optimized`, tiktok.py) -/

/-- Chunk-size / worker-count tier selection by file size
(tiktok.py lines 46-54). -/
def chunk_plan (file_size : Nat) : Nat × Nat :=
  if file_size < 50 * 1024 * 1024 then (2 * 1024 * 1024, 8)
  else if file_size < 200 * 1024 * 1024 then (5 * 1024 * 1024, 6)
  else (10 * 1024 * 1024, 4)

/-- The chunk-splitting loop of tiktok.py lines 55-59:
`while i < file_size: chunks.append(content[i : i + chunk_size]); i += chunk_size`.
Each step takes the slice `content[0 : c]` of the remainder and recurses on
the rest; written head-first so termination is independent of `c`. -/
def toChunks (c : Nat) : List Nat → List (List Nat)
  | [] => []
  | x :: xs => (x :: xs.take (c - 1)) :: toChunks c (xs.drop (c - 1))
termination_by l => l.length
decreasing_by simp [List.length_drop]; omega







/-- Per-chunk retry driver `upload_chunk_fixed` (tiktok.py lines 116-144):
up to `max_retries = 3` attempts; `att a` tells whether attempt `a` succeeds
(`assert_success` true; timeouts, connection errors and other exceptions are
failures). Returns the overall result and the list of backoff sleeps
`min (2 ^ attempt) 10` issued between attempts. -/
def upload_chunk_go (att : Nat → Bool) (attempt : Nat) : Bool × List Nat :=
  if att attempt then (true, [])
  else if attempt < 3 - 1 then
    let r := upload_chunk_go att (attempt + 1)
    (r.1, min (2 ^ attempt) 10 :: r.2)
  else (false, [])
termination_by 3 - attempt
decreasing_by omega

def upload_chunk_fixed (att : Nat → Bool) : Bool × List Nat :=
  upload_chunk_go att 0



/-! ## Upload driver `upload_to_tiktok_api` (autobot.py lines 703-995) -/

/-- The protocol requests issued by one upload attempt, in order. -/
inductive Req where
  | authFetch
  | applyInit
  | chunkTransfer (part : Nat)
  | finishPhase
  | commitInner
  | headWarm
  | publishPost
  deriving DecidableEq, Repr

/-- Oracle for everything the upload attempt observes from the outside world:
HTTP responses, the handoff event, the signing subprocess. -/
structure UploadEnv where
  /-- Models `channel in channel_events` at autobot.py line 821 (a missing key
  raises `KeyError`, caught by the outer handler). -/
  eventPresent : Bool
  /-- Whether the handoff event is already set when the wait starts. -/
  eventSet : Bool
  /-- Whether the render stage sets the event during the 80s wait window. -/
  signalDuringWait : Bool
  /-- Result of `assert_success` for the auth-fetch GET (tiktok.py line 19). -/
  authOk : Bool
  /-- Result of `assert_success` for the ApplyUploadInner GET (tiktok.py line 35). -/
  applyOk : Bool
  /-- Value of the `Vid` field of the apply response. -/
  videoId : String
  /-- Bytes of the video file. -/
  content : List Nat
  /-- Oracle `chunkOk i a`: attempt `a` of chunk index `i` succeeds. -/
  chunkOk : Nat → Nat → Bool
  /-- Result of `assert_success` for the phase=finish POST (autobot.py lines 849-856). -/
  finishOk : Bool
  /-- Result of `assert_success` for the CommitUploadInner POST (autobot.py line 860). -/
  commitOk : Bool
  /-- Result of `assert_success` for the HEAD warm-up (autobot.py line 869). -/
  headOk : Bool
  /-- Stdout of the pre-generated signature subprocess (autobot.py line 817);
  `none` models a `None` return. -/
  preSigs : Option String
  /-- Stdout of the in-loop signature re-generation (autobot.py line 927). -/
  regenSigs : Option String
  /-- Models `json.loads(sigs)` plus field extraction: `none` models a
  `JSONDecodeError`/`KeyError`. -/
  parseSig : String → Option (String × String)
  /-- Result of `assertSuccess` for the publish POST (autobot.py line 957). -/
  publishOk : Bool
  /-- Value of the status code field in the publish response body. -/
  publishStatus : Int

/-- Source function `upload_to_tiktok_optimized` (tiktok.py lines 15-114): auth fetch, apply,
then submit every chunk to the worker pool; fail (return `none`, the Python
`False`) if auth or apply fails or any chunk exhausts its retries; on success
return the per-chunk lengths (standing in for the crc list). The second
component is the list of protocol requests issued. -/
def upload_to_tiktok_optimized (env : UploadEnv) : Option (List Nat) × List Req :=
  if !env.authOk then (none, [.authFetch])
  else if !env.applyOk then (none, [.authFetch, .applyInit])
  else
    let fs := env.content.length
    let plan := chunk_plan fs
    let chunks := toChunks plan.1 env.content
    let reqs := (List.range chunks.length).map (fun i => Req.chunkTransfer (i + 1))
    if (List.range chunks.length).all (fun i => (upload_chunk_fixed (env.chunkOk i)).1)
    then (some (chunks.map List.length), [.authFetch, .applyInit] ++ reqs)
    else (none, [.authFetch, .applyInit] ++ reqs)

/-- Models `threading.Event.wait(timeout)` as observed by the upload stage: returns
`true` immediately when the event is already set, `true` when the signal
arrives inside the window, and `false` (no exception) after the timeout.
Real-time blocking is not modelled; `timeout` records the configured bound. -/
def event_wait (timeout : Nat) (isSet : Bool) (signalled : Bool) : Bool :=
  isSet || signalled

/-- The timeout passed at autobot.py lines 822 and 1104. -/
def handoff_timeout : Nat := 80

/-- Python truthiness of the `Optional[str]` signature value:
`None` and the empty string are falsy. -/
def sigFalsy (s : Option String) : Bool :=
  match s with
  | none => true
  | some str => str == ""

/-- Result of one pass through the `while True` publish loop body
(autobot.py lines 918-969). -/
inductive BodyResult where
  | ret (b : Bool)
  | brk
  | cont
  deriving DecidableEq, Repr

/-- One pass through the publish loop body (autobot.py lines 918-969):
regenerate the signature when it is falsy; bail out on a still-missing or
unparsable signature; POST the publish request; return `false` unless the
response is a success with body `status_code == 0`, in which case break.
Output: (outcome, publish POSTs issued (0 or 1), re-generations run (0 or 1),
signature value after the pass). An uncaught `KeyError` while reading the
signature fields lands in the outer handler, which returns `False`; `parseSig`
therefore covers both the guarded `json.loads` and the field reads. -/
def publish_body (env : UploadEnv) (sigs : Option String) :
    BodyResult × Nat × Nat × Option String :=
  let regenCount := if sigFalsy sigs then 1 else 0
  let sigs' := if sigFalsy sigs then env.regenSigs else sigs
  match sigs' with
  | none => (.ret false, 0, regenCount, none)
  | some s =>
    match env.parseSig s with
    | none => (.ret false, 0, regenCount, some s)
    | some _ =>
      if !env.publishOk then (.ret false, 1, regenCount, some s)
      else if env.publishStatus = 0 then (.brk, 1, regenCount, some s)
      else (.ret false, 1, regenCount, some s)

/-- The `while True` loop, fuel-indexed. Returns (value produced once the
loop is exited — where `brk` falls through to the `if video_id:` check at
autobot.py line 975 —, publish POSTs issued, re-generations run). Fuel `0`
is unreachable: `publish_body` never yields `cont`. -/
def publish_loop (env : UploadEnv) : Nat → Option String → Bool × Nat × Nat
  | 0, _ => (false, 0, 0)
  | fuel + 1, sigs =>
    match publish_body env sigs with
    | (.ret b, npub, nregen, _) => (b, npub, nregen)
    | (.brk, npub, nregen, _) => (env.videoId ≠ "", npub, nregen)
    | (.cont, npub, nregen, sigs') =>
      let r := publish_loop env fuel sigs'
      (r.1, npub + r.2.1, nregen + r.2.2)

/-- Source function `upload_to_tiktok_api` (autobot.py lines 703-995): wait on the handoff
event, run the optimized chunk upload (a `False` there fails the
tuple-unpacking at line 830 and lands in the outer handler), then finish,
commit, HEAD warm-up and the publish loop. Returns the boolean result and
the protocol requests issued. -/
def upload_to_tiktok_api (env : UploadEnv) : Bool × List Req :=
  if !env.eventPresent then (false, [])
  else if !(event_wait handoff_timeout env.eventSet env.signalDuringWait) then (false, [])
  else
    match upload_to_tiktok_optimized env with
    | (none, tr) => (false, tr)
    | (some _, tr) =>
      if !env.finishOk then (false, tr ++ [.finishPhase])
      else if !env.commitOk then (false, tr ++ [.finishPhase, .commitInner])
      else if !env.headOk then (false, tr ++ [.finishPhase, .commitInner, .headWarm])
      else
        let r := publish_loop env 64 env.preSigs
        (r.1, tr ++ [.finishPhase, .commitInner, .headWarm] ++
          List.replicate r.2.1 .publishPost)

















/-- A concrete environment in which every chunk attempt fails. -/
def envChunkFail : UploadEnv :=
  { eventPresent := true, eventSet := true, signalDuringWait := false,
    authOk := true, applyOk := true, videoId := "v1", content := [0],
    chunkOk := fun _ _ => false, finishOk := true, commitOk := true,
    headOk := true, preSigs := none, regenSigs := none,
    parseSig := fun _ => none, publishOk := true, publishStatus := 0 }

/-- A concrete environment in which the handoff event exists but is never
signalled. -/
def envNoSignal : UploadEnv :=
  { envChunkFail with eventSet := false, signalDuringWait := false }

/-! ## Render decision (`render_video_ffmpeg`, autobot.py lines 479-551) -/

/-- The reshaping strategy chosen for a probed duration. -/
inductive RenderAction where
  /-- Case `60 <= duration <= 300`: return `None`, no re-encode. -/
  | passthrough
  /-- Looped concatenation via `stream_loop=loops` with stream copy, hard trim at `t`. -/
  | loopTrim (loops : Int) (t : Nat)
  /-- Time stretch via `setpts` and `atempo` by `factor`, trim at `t`. -/
  | slowStretch (factor : Rat) (t : Nat)
  /-- Stream copy with hard trim at `t`. -/
  | trimOnly (t : Nat)
  deriving DecidableEq, Repr

/-- The decision table of `render_video_ffmpeg` (autobot.py lines 486-544).
Durations are modelled as rationals; `int(60 // duration)` is
`⌊60 / duration⌋` for a positive duration. -/
def render_video_ffmpeg (duration : Rat) (method : String) : RenderAction :=
  if 60 ≤ duration ∧ duration ≤ 300 then .passthrough
  else if duration ≤ 30 then .loopTrim (⌊(60 : Rat) / duration⌋ + 1) 60
  else if 30 < duration ∧ duration < 60 then
    if method = "repeat" then .loopTrim (⌊(60 : Rat) / duration⌋ + 1) 60
    else .slowStretch (duration / 61) 61
  else .trimOnly 300

/-! ## Pipeline orchestrator (`process_video_pipeline`, autobot.py 1205-1359) -/

/-- Observable pipeline events, in execution order: operations on the
ProcessedMarker file `log/<channel>` and the three stage invocations. -/
inductive PEvent where
  | writeMarker (id : String)
  | deleteMarker
  | download
  | render
  | upload
  deriving DecidableEq, Repr

/-- Oracle for one pipeline run: initial marker file content, stage results
and the cancellation flag at the two checkpoints. -/
structure PipelineEnv where
  /-- Content of `log/<channel>` before the run (`none` = file absent). -/
  marker0 : Option String
  /-- Whether `download_video` returned a truthy value (it returns `True` or `None`). -/
  downloadOk : Bool
  /-- Value of `stop_event.is_set()` at the check after the download stage. -/
  cancelAfterDownload : Bool
  /-- Outcome of `render_video_ffmpeg`: `none` = `None` (passthrough),
  `some true` = rendered, `some false` = failure. -/
  renderResult : Option Bool
  /-- Value of `stop_event.is_set()` at the check before the upload stage. -/
  cancelBeforeUpload : Bool
  /-- Whether `upload_to_tiktok` returned a truthy value. -/
  uploadOk : Bool

/-- The tail of the pipeline from the pre-upload cancellation check
(autobot.py lines 1293-1350). -/
def pipeline_post_render (steps : StepFlags) (videoId : String)
    (env : PipelineEnv) (evs : List PEvent) : Bool × Option String × List PEvent :=
  if env.cancelBeforeUpload then (false, some videoId, evs)
  else if steps.upload then
    if !env.uploadOk then (false, some videoId, evs ++ [.upload])
    else (true, some videoId, evs ++ [.upload])
  else (true, some videoId, evs)

/-- The tail of the pipeline from the post-download cancellation check
(autobot.py lines 1266-1291). -/
def pipeline_post_download (steps : StepFlags) (videoId : String)
    (env : PipelineEnv) (evs : List PEvent) : Bool × Option String × List PEvent :=
  if env.cancelAfterDownload then (false, some videoId, evs)
  else if steps.render then
    if env.renderResult = some false then (false, some videoId, evs ++ [.render])
    else pipeline_post_render steps videoId env (evs ++ [.render])
  else pipeline_post_render steps videoId env evs

/-- `process_video_pipeline` (autobot.py lines 1205-1359): sanitize the step
set; return `True` at once when download, render and upload are all disabled
(line 1230); otherwise write the ProcessedMarker (line 1243), run the enabled
stages in order, and on download failure delete the marker (lines 1258-1259,
the file was just written so the `exists()` guard passes) before returning
`False`. Result: (return value, final marker content, event trace). -/
def process_video_pipeline (inp : Option StepsInput) (videoId : String)
    (env : PipelineEnv) : Bool × Option String × List PEvent :=
  let steps := sanitize_pipeline_steps inp
  if !(steps.download || steps.render || steps.upload) then
    (true, env.marker0, [])
  else
    let evs0 := [PEvent.writeMarker videoId]
    if steps.download then
      if !env.downloadOk then
        (false, none, evs0 ++ [.download, .deleteMarker])
      else pipeline_post_download steps videoId env (evs0 ++ [.download])
    else pipeline_post_download steps videoId env evs0

/-- A concrete pipeline environment: a previous marker exists, the download
stage fails. -/
def envDownloadFail : PipelineEnv :=
  { marker0 := some ("old"), downloadOk := false, cancelAfterDownload := false,
    renderResult := none, cancelBeforeUpload := false, uploadOk := true }

/-- The all-keys-defaulted pipeline-steps input (every stage enabled). -/
def allDefaultInput : StepsInput :=
  { scan := none, download := none, render := none, upload := none }

/-- The input disabling download, render and upload explicitly. -/
def allOffInput : StepsInput :=
  { scan := none, download := some false, render := some false,
    upload := some false }

/-- The input setting only `download` to `false` (the claim C10 example). -/
def downloadOffInput : StepsInput :=
  { scan := none, download := some false, render := none, upload := none }

/-! ## Credential rotation (`fetch_youtube_activities`, autobot.py 1362-1442) -/

/-- The inner `make_request` retry driver (autobot.py lines 1372-1400):
up to `max_retries = 3` attempts for one key; `att a` tells whether attempt
`a` returns a non-error response; between failed attempts it sleeps
`2 ^ retry + jitter` seconds (`random.uniform(0, 0.1)` modelled by the
oracle `jit`). Returns overall success and the sleep list. -/
def make_request_go (att : Nat → Bool) (jit : Nat → Rat) (retry : Nat) :
    Bool × List Rat :=
  if att retry then (true, [])
  else if retry < 3 - 1 then
    let r := make_request_go att jit (retry + 1)
    (r.1, ((2 : Rat) ^ retry + jit retry) :: r.2)
  else (false, [])
termination_by 3 - retry
decreasing_by omega

def make_request (att : Nat → Bool) (jit : Nat → Rat) : Bool × List Rat :=
  make_request_go att jit 0

/-- The sequential branch of `fetch_youtube_activities` (autobot.py lines
1423-1442): walk the key list in order; skip keys already in the process-wide
`FAIL_KEY_LIST`; call `make_request` on `key.strip()` (modelled by
`String.trim`); return the first success's response (`val k` stands for the
parsed JSON); on failure append the key to the failed set and continue; when
the list is exhausted raise (modelled by `Except.error` carrying the failed
set). Returns (result, final failed set, keys actually requested). -/
def fetch_sequential (att : String → Nat → Bool) (jit : String → Nat → Rat)
    (val : String → Nat) (keys : List String) (failed : List String) :
    Except (List String) Nat × List String × List String :=
  match keys with
  | [] => (.error failed, failed, [])
  | k :: rest =>
    let k' := k.trim
    if k' ∈ failed then fetch_sequential att jit val rest failed
    else if (make_request (att k') (jit k')).1 then (.ok (val k'), failed, [k'])
    else
      let r := fetch_sequential att jit val rest (failed ++ [k'])
      (r.1, r.2.1, k' :: r.2.2)

/-- The predicate selecting a stripped key that is outside the failed set
and whose request succeeds, used to name the first working key. -/
def seqPred (att : String → Nat → Bool) (jit : String → Nat → Rat)
    (failed : List String) (k : String) : Bool :=
  !(decide (k ∈ failed)) && (make_request (att k) (jit k)).1

end ReupTool

open ReupTool

theorem toChunks_flatten (c : Nat) (l : List Nat) : (toChunks c l).flatten = l := by
  have H : ∀ n (l : List Nat), l.length ≤ n → (toChunks c l).flatten = l := by
    intro n
    induction n with
    | zero =>
      intro l h
      match l with
      | [] => simp [toChunks]
    | succ n ih =>
      intro l h
      match l with
      | [] => simp [toChunks]
      | x :: xs =>
        rw [toChunks]
        have hrec := ih (xs.drop (c - 1)) (by simp at h ⊢; omega)
        simp [hrec]
  exact H l.length l le_rfl

theorem toChunks_length (c : Nat) (hc : 0 < c) (l : List Nat) :
    (toChunks c l).length = (l.length + c - 1) / c := by
  have H : ∀ n (l : List Nat), l.length ≤ n →
      (toChunks c l).length = (l.length + c - 1) / c := by
    intro n
    induction n with
    | zero =>
      intro l h
      match l with
      | [] => simp [toChunks, Nat.div_eq_of_lt (by omega : c - 1 < c)]
    | succ n ih =>
      intro l h
      match l with
      | [] => simp [toChunks, Nat.div_eq_of_lt (by omega : c - 1 < c)]
      | x :: xs =>
        rw [toChunks]
        have hrec := ih (xs.drop (c - 1)) (by simp at h ⊢; omega)
        simp only [List.length_cons, List.length_drop] at hrec ⊢
        rw [hrec]
        rcases Nat.lt_or_ge xs.length (c - 1) with hlt | hge
        · have h1 : xs.length - (c - 1) = 0 := by omega
          have h2 : xs.length + 1 + c - 1 = xs.length + 1 + (c - 1) := by omega
          have h3 : (0 + c - 1) / c = 0 := Nat.div_eq_of_lt (by omega)
          have h4 : (xs.length + 1 + (c - 1)) / c = 1 := by
            apply Nat.div_eq_of_lt_le <;> omega
          rw [h1, h2, h3, h4]
        · have h1 : xs.length - (c - 1) + c - 1 = xs.length := by omega
          have h2 : xs.length + 1 + c - 1 = xs.length + c := by omega
          rw [h1, h2, Nat.add_div_right _ hc]
  exact H l.length l le_rfl

theorem toChunks_sum_lengths (c : Nat) (l : List Nat) :
    ((toChunks c l).map List.length).sum = l.length := by
  rw [← List.length_flatten, toChunks_flatten]

theorem nat_ceil_div (a c : Nat) (hc : 0 < c) (ha : 0 < a) :
    (((a + c - 1) / c : Nat) : Int) = ⌈(a : Rat) / (c : Rat)⌉ := by
  have hdm := Nat.div_add_mod (a + c - 1) c
  have hmod : (a + c - 1) % c < c := Nat.mod_lt _ hc
  set n := (a + c - 1) / c with hn
  have h1 : c * n ≤ a + c - 1 := by omega
  have h2 : a + c - 1 < c * n + c := by omega
  have h1z : (c : Int) * n ≤ (a : Int) + c - 1 := by
    have := h1
    zify [show 1 ≤ a + c by omega] at this
    linarith
  have h2z : (a : Int) + c - 1 < (c : Int) * n + c := by
    have := h2
    zify [show 1 ≤ a + c by omega] at this
    linarith
  have hcq : (0 : Rat) < (c : Rat) := by positivity
  symm
  rw [Int.ceil_eq_iff]
  constructor
  · rw [lt_div_iff hcq]
    have hz : ((n : Int) - 1) * (c : Int) < (a : Int) := by
      have e : ((n : Int) - 1) * (c : Int) = (c : Int) * n - c := by ring
      rw [e]
      omega
    exact_mod_cast hz
  · rw [div_le_iff hcq]
    have hz : (a : Int) ≤ (n : Int) * (c : Int) := by
      have e : (n : Int) * (c : Int) = (c : Int) * n := by ring
      rw [e]
      omega
    exact_mod_cast hz

theorem upload_chunk_fixed_eq (att : Nat → Bool) :
    upload_chunk_fixed att =
      (att 0 || att 1 || att 2,
       if att 0 then [] else if att 1 then [1] else [1, 2]) := by
  cases h0 : att 0 <;> cases h1 : att 1 <;> cases h2 : att 2 <;>
    simp [upload_chunk_fixed, upload_chunk_go, h0, h1, h2]

theorem upload_chunk_waits_le (att : Nat → Bool) :
    ∀ w ∈ (upload_chunk_fixed att).2, w ≤ 10 := by
  rw [upload_chunk_fixed_eq]
  cases att 0 <;> cases att 1 <;> simp

theorem optimized_trace_shape (env : UploadEnv) :
    ∀ r ∈ (upload_to_tiktok_optimized env).2,
      r = .authFetch ∨ r = .applyInit ∨ ∃ p, r = .chunkTransfer p := by
  intro r hr
  unfold upload_to_tiktok_optimized at hr
  rcases ha : env.authOk with _ | _ <;> simp [ha] at hr
  · tauto
  rcases hap : env.applyOk with _ | _ <;> simp [hap] at hr
  · tauto
  split at hr <;> simp at hr <;> tauto

theorem publish_body_cases (env : UploadEnv) (sigs : Option String) :
    (publish_body env sigs).1 = .ret false ∨
      ((publish_body env sigs).1 = .brk ∧ env.publishStatus = 0) := by
  unfold publish_body
  rcases hs : (if sigFalsy sigs then env.regenSigs else sigs) with _ | s
  · simp
  · rcases hp : env.parseSig s with _ | v
    · simp [hp]
    · rcases hpub : env.publishOk with _ | _ <;>
        by_cases hst : env.publishStatus = 0 <;> simp [hp, hpub, hst]

theorem publish_body_counts (env : UploadEnv) (sigs : Option String) :
    (publish_body env sigs).2.1 ≤ 1 ∧ (publish_body env sigs).2.2.1 ≤ 1 := by
  unfold publish_body
  rcases hs : (if sigFalsy sigs then env.regenSigs else sigs) with _ | s <;>
    rcases hf : sigFalsy sigs with _ | _ <;> simp [hf] at hs ⊢
  · rcases hp : env.parseSig s with _ | v
    · simp [hp]
    · rcases hpub : env.publishOk with _ | _ <;>
        by_cases hst : env.publishStatus = 0 <;> simp [hp, hpub, hst]
  · rcases hp : env.parseSig s with _ | v
    · simp [hp]
    · rcases hpub : env.publishOk with _ | _ <;>
        by_cases hst : env.publishStatus = 0 <;> simp [hp, hpub, hst]

theorem publish_loop_eq_once (env : UploadEnv) (fuel : Nat) (sigs : Option String)
    (h : 1 ≤ fuel) : publish_loop env fuel sigs = publish_loop env 1 sigs := by
  obtain ⟨f, rfl⟩ : ∃ f, fuel = f + 1 := ⟨fuel - 1, by omega⟩
  rcases hb : publish_body env sigs with ⟨r, npub, nregen, sigs'⟩
  rcases r with b | _ | _
  · simp [publish_loop, hb]
  · simp [publish_loop, hb]
  · rcases publish_body_cases env sigs with hc | hc <;> rw [hb] at hc <;> simp at hc

theorem api_of_optimized_none (env : UploadEnv)
    (h : (upload_to_tiktok_optimized env).1 = none) :
    (upload_to_tiktok_api env).1 = false ∧
    ((upload_to_tiktok_api env).2 = [] ∨
      (upload_to_tiktok_api env).2 = (upload_to_tiktok_optimized env).2) := by
  unfold upload_to_tiktok_api
  cases he : env.eventPresent <;> simp [he]
  cases hw : event_wait handoff_timeout env.eventSet env.signalDuringWait <;> simp [hw]
  rcases ho : upload_to_tiktok_optimized env with ⟨o, tr⟩
  rw [ho] at h
  simp at h
  subst h
  simp

theorem publish_loop_once_counts (env : UploadEnv) (sigs : Option String) :
    (publish_loop env 1 sigs).2.1 ≤ 1 ∧ (publish_loop env 1 sigs).2.2 ≤ 1 := by
  rcases hb : publish_body env sigs with ⟨r, npub, nregen, sigs'⟩
  have hc := publish_body_counts env sigs
  rw [hb] at hc
  simp at hc
  rcases r with b | _ | _
  · simpa [publish_loop, hb] using hc
  · simpa [publish_loop, hb] using hc
  · rcases publish_body_cases env sigs with h | h <;> rw [hb] at h <;> simp at h

/-- In every execution of `upload_to_tiktok_api`, the publish POST appears at
most once in the request trace. -/
theorem api_publish_count_le_one (env : UploadEnv) :
    ((upload_to_tiktok_api env).2.count .publishPost) ≤ 1 := by
  have hshape := optimized_trace_shape env
  have hopt_no : Req.publishPost ∉ (upload_to_tiktok_optimized env).2 := by
    intro hmem
    rcases hshape _ hmem with h | h | ⟨p, h⟩ <;> simp at h
  unfold upload_to_tiktok_api
  cases he : env.eventPresent <;> simp [he]
  cases hw : event_wait handoff_timeout env.eventSet env.signalDuringWait <;> simp [hw]
  rcases ho : upload_to_tiktok_optimized env with ⟨o, tr⟩
  rw [ho] at hopt_no
  simp at hopt_no
  have htr : tr.count .publishPost = 0 := List.count_eq_zero.mpr hopt_no
  rcases o with _ | v
  · simp only []
    omega
  · have hloop := (publish_loop_once_counts env env.preSigs).1
    rw [← publish_loop_eq_once env 64 env.preSigs (by norm_num)] at hloop
    cases hf : env.finishOk <;> cases hcm : env.commitOk <;>
      cases hh : env.headOk <;>
      simp [hf, hcm, hh, List.count_append, htr, List.count_replicate]
    omega

/-- **C2.** For every file content of size `fileSize > 0`,
`upload_to_tiktok_optimized` selects the chunk size and worker count by tier
(`fileSize < 50MB` gives 2MB chunks and 8 workers; otherwise
`fileSize < 200MB` gives 5MB chunks and 6 workers; otherwise 10MB chunks and
4 workers), and the resulting chunk list partitions the file: the
concatenation of the chunks equals the file content, the chunk sizes sum to
`fileSize`, and the chunk count equals `ceil (fileSize / chunkSize)` (stated
both as `(fileSize + chunkSize - 1) / chunkSize` over `Nat` and as a rational
ceiling). -/
theorem chunk_split_partitions (content : List Nat) (hpos : 0 < content.length) :
    (toChunks (chunk_plan content.length).1 content).flatten = content ∧
    ((toChunks (chunk_plan content.length).1 content).map List.length).sum =
      content.length ∧
    (toChunks (chunk_plan content.length).1 content).length =
      (content.length + (chunk_plan content.length).1 - 1) /
        (chunk_plan content.length).1 ∧
    ((toChunks (chunk_plan content.length).1 content).length : Int) =
      ⌈(content.length : Rat) / ((chunk_plan content.length).1 : Rat)⌉ ∧
    (content.length < 50 * 1024 * 1024 →
      chunk_plan content.length = (2 * 1024 * 1024, 8)) ∧
    (50 * 1024 * 1024 ≤ content.length → content.length < 200 * 1024 * 1024 →
      chunk_plan content.length = (5 * 1024 * 1024, 6)) ∧
    (200 * 1024 * 1024 ≤ content.length →
      chunk_plan content.length = (10 * 1024 * 1024, 4)) := by
  have hc : 0 < (chunk_plan content.length).1 := by
    unfold chunk_plan
    split
    · norm_num
    · split <;> norm_num
  refine ⟨toChunks_flatten _ _, toChunks_sum_lengths _ _, toChunks_length _ hc _,
    ?_, ?_, ?_, ?_⟩
  · rw [toChunks_length _ hc _, nat_ceil_div _ _ hc hpos]
  · intro h
    unfold chunk_plan
    rw [if_pos h]
  · intro h1 h2
    unfold chunk_plan
    rw [if_neg (by omega), if_pos h2]
  · intro h
    unfold chunk_plan
    rw [if_neg (by omega), if_neg (by omega)]

/-- Witness for C2 at a concrete one-byte file: the single chunk is the file
itself, in the small tier (2MB chunks, 8 workers). -/
theorem chunk_split_partitions_witness :
    0 < ([7] : List Nat).length ∧
      (toChunks (chunk_plan ([7] : List Nat).length).1 [7]).flatten = [7] ∧
      (chunk_plan ([7] : List Nat).length) = (2 * 1024 * 1024, 8) := by
  have h := chunk_split_partitions [7] (by decide)
  exact ⟨by decide, h.1, h.2.2.2.2.1 (by norm_num)⟩

/-- **C1.** For every partial flag map over {scan, download, render, upload}
(missing keys defaulting to `true`, present values coerced to booleans), the
output of `_sanitize_pipeline_steps` satisfies all four invariants:
upload ⇒ render ∧ download; render ⇒ download; ¬render ⇒ ¬upload;
¬download ⇒ ¬render ∧ ¬upload. -/
theorem sanitize_pipeline_steps_invariants :
    ∀ inp : Option StepsInput, stepInvariants (sanitize_pipeline_steps inp) := by
  decide

/-- **C6.** `_sanitize_pipeline_steps` is idempotent: for all 16 boolean
combinations of a fully populated step set, sanitizing the sanitized output
yields the same result as sanitizing once. -/
theorem sanitize_pipeline_steps_idempotent :
    ∀ s : StepFlags,
      sanitize_pipeline_steps (some (sanitize_pipeline_steps (some s.toInput)).toInput) =
        sanitize_pipeline_steps (some s.toInput) := by
  decide

/-- **C3.** For every upload attempt in which at least one chunk fails all 3
of its retry attempts (each retry separated by an exponential backoff sleep
capped at 10 seconds), the overall upload attempt reports failure
(`upload_to_tiktok_api` returns false) and no phase=finish request and no
CommitUploadInner request is issued. -/
theorem chunk_exhaustion_fails_upload (env : UploadEnv)
    (hfail : ∃ i, i < (toChunks (chunk_plan env.content.length).1 env.content).length ∧
      ∀ a, a < 3 → env.chunkOk i a = false) :
    (upload_to_tiktok_api env).1 = false ∧
    Req.finishPhase ∉ (upload_to_tiktok_api env).2 ∧
    Req.commitInner ∉ (upload_to_tiktok_api env).2 ∧
    (∀ j, ∀ w ∈ (upload_chunk_fixed (env.chunkOk j)).2, w ≤ 10) := by
  obtain ⟨i, hi, hatt⟩ := hfail
  have hone : (upload_chunk_fixed (env.chunkOk i)).1 = false := by
    rw [upload_chunk_fixed_eq]
    simp [hatt 0 (by norm_num), hatt 1 (by norm_num), hatt 2 (by norm_num)]
  have hopt : (upload_to_tiktok_optimized env).1 = none := by
    unfold upload_to_tiktok_optimized
    cases ha : env.authOk <;> simp [ha]
    cases hap : env.applyOk <;> simp [hap]
    have hnall : ¬ ∀ x < (toChunks (chunk_plan env.content.length).1
        env.content).length, (upload_chunk_fixed (env.chunkOk x)).1 = true := by
      intro hT
      have := hT i hi
      rw [hone] at this
      simp at this
    rw [if_neg hnall]
  have hapi := api_of_optimized_none env hopt
  have hshape := optimized_trace_shape env
  refine ⟨hapi.1, ?_, ?_, fun j => upload_chunk_waits_le (env.chunkOk j)⟩
  · intro hmem
    rcases hapi.2 with h2 | h2 <;> rw [h2] at hmem
    · simp at hmem
    · rcases hshape _ hmem with h | h | ⟨p, h⟩ <;> simp at h
  · intro hmem
    rcases hapi.2 with h2 | h2 <;> rw [h2] at hmem
    · simp at hmem
    · rcases hshape _ hmem with h | h | ⟨p, h⟩ <;> simp at h

/-- Witness for C3: in `envChunkFail` the single chunk of the one-byte file
fails all three attempts; the attempt reports failure and neither the finish
nor the commit request is issued. -/
theorem chunk_exhaustion_fails_upload_witness :
    (∃ i, i < (toChunks (chunk_plan envChunkFail.content.length).1
        envChunkFail.content).length ∧
      ∀ a, a < 3 → envChunkFail.chunkOk i a = false) ∧
    (upload_to_tiktok_api envChunkFail).1 = false ∧
    Req.finishPhase ∉ (upload_to_tiktok_api envChunkFail).2 := by
  have hex : ∃ i, i < (toChunks (chunk_plan envChunkFail.content.length).1
      envChunkFail.content).length ∧
      ∀ a, a < 3 → envChunkFail.chunkOk i a = false := by
    refine ⟨0, ?_, fun a _ => rfl⟩
    rw [toChunks_length _ (by norm_num [envChunkFail, chunk_plan])]
    norm_num [envChunkFail, chunk_plan]
  have h := chunk_exhaustion_fails_upload envChunkFail hex
  exact ⟨hex, h.1, h.2.1⟩

/-- **C8.** The upload stage's wait on the per-channel handoff signal returns
false (not an exception) after the 80-second timeout when the render stage
never signals, in which case the upload attempt returns false without
transferring any chunk; and it returns true immediately when the signal was
already set before the wait. -/
theorem handoff_wait_contract (env : UploadEnv) :
    (env.eventPresent = true → env.eventSet = false → env.signalDuringWait = false →
      event_wait handoff_timeout env.eventSet env.signalDuringWait = false ∧
      (upload_to_tiktok_api env).1 = false ∧
      ∀ p, Req.chunkTransfer p ∉ (upload_to_tiktok_api env).2) ∧
    (env.eventSet = true →
      event_wait handoff_timeout env.eventSet env.signalDuringWait = true) := by
  constructor
  · intro hp hs hw
    have hwait : event_wait handoff_timeout env.eventSet env.signalDuringWait = false := by
      simp [event_wait, hs, hw]
    have happ : upload_to_tiktok_api env = (false, []) := by
      unfold upload_to_tiktok_api
      simp [hp, hwait]
    exact ⟨hwait, by rw [happ], by rw [happ]; simp⟩
  · intro hs
    simp [event_wait, hs]

/-- Witness for C8: with the event present but never signalled
(`envNoSignal`) the wait yields false, the attempt returns false and no chunk
is transferred; with the event already set (`envChunkFail`) the wait yields
true. -/
theorem handoff_wait_contract_witness :
    event_wait handoff_timeout false false = false ∧
    (upload_to_tiktok_api envNoSignal).1 = false ∧
    (∀ p, Req.chunkTransfer p ∉ (upload_to_tiktok_api envNoSignal).2) ∧
    event_wait handoff_timeout true false = true := by
  have h1 := (handoff_wait_contract envNoSignal).1 rfl rfl rfl
  have h2 := (handoff_wait_contract envChunkFail).2 rfl
  exact ⟨h1.1, h1.2.1, h1.2.2, h2⟩

/-- **C9.** The `while True` retry loop around the publish POST executes its
body at most once for every input: a missing signature triggers at most one
re-generation, every path through the body either breaks on a response with
`status_code == 0` or returns false (so the loop's value is already fixed
with one unit of fuel), and the publish request is sent at most once per
upload attempt. -/
theorem publish_retry_loop_runs_once (env : UploadEnv) (sigs : Option String)
    (fuel : Nat) (hfuel : 1 ≤ fuel) :
    publish_loop env fuel sigs = publish_loop env 1 sigs ∧
    (publish_loop env fuel sigs).2.1 ≤ 1 ∧
    (publish_loop env fuel sigs).2.2 ≤ 1 ∧
    ((publish_body env sigs).1 = .ret false ∨
      ((publish_body env sigs).1 = .brk ∧ env.publishStatus = 0)) ∧
    ((upload_to_tiktok_api env).2.count .publishPost) ≤ 1 := by
  have h1 := publish_loop_eq_once env fuel sigs hfuel
  have h2 := publish_loop_once_counts env sigs
  exact ⟨h1, by rw [h1]; exact h2.1, by rw [h1]; exact h2.2,
    publish_body_cases env sigs, api_publish_count_le_one env⟩

/-- Witness for C9: two units of fuel behave exactly like one on
`envChunkFail` with a missing signature, and that attempt issues at most one
publish POST. -/
theorem publish_retry_loop_runs_once_witness :
    (1 : Nat) ≤ 2 ∧
    publish_loop envChunkFail 2 none = publish_loop envChunkFail 1 none ∧
    (publish_loop envChunkFail 2 none).2.1 ≤ 1 ∧
    ((upload_to_tiktok_api envChunkFail).2.count .publishPost) ≤ 1 := by
  have h := publish_retry_loop_runs_once envChunkFail none 2 (by norm_num)
  exact ⟨by norm_num, h.1, h.2.1, h.2.2.2.2⟩

/-- **C4 counterexample.** At probed duration 16 (which divides into 60 with a
remainder), the code loops `int(60 // 16) + 1 = 4` times, while the claim's
formula `ceil(60/16) + 1` gives 5: the claimed loop count is wrong. -/
theorem render_loop_count_ceil_counterexample :
    render_video_ffmpeg 16 "repeat" = .loopTrim 4 60 ∧
    (⌈(60 : Rat) / 16⌉ + 1 : Int) = 5 ∧ ((4 : Int) = 5 → False) := by
  have hfloor : ⌊(60 : Rat) / 16⌋ = 3 := by
    rw [Int.floor_eq_iff] <;> norm_num
  have hceil : ⌈(60 : Rat) / 16⌉ = 4 := by
    rw [Int.ceil_eq_iff] <;> norm_num
  refine ⟨?_, by rw [hceil]; norm_num, by norm_num⟩
  unfold render_video_ffmpeg
  rw [if_neg (by norm_num), if_pos (by norm_num), hfloor]
  norm_num

/-- **C4 (amended).** For every probed duration `d > 0`,
`render_video_ffmpeg` selects exactly one strategy per the decision table:
`d ∈ [60, 300]` (inclusive) yields passthrough with no re-encode; `d ≤ 30`
loop-concatenates the input `floor(60/d) + 1` times then hard-trims to 60s;
`30 < d < 60` either loop-concatenates the same way and trims to 60s or
time-stretches audio and video by factor `d/61` and trims to 61s, chosen by
the channel's configured method; `d > 300` hard-trims to 300s. -/
theorem render_decision_table (d : Rat) (m : String) (hd : 0 < d) :
    (60 ≤ d ∧ d ≤ 300 → render_video_ffmpeg d m = .passthrough) ∧
    (d ≤ 30 → render_video_ffmpeg d m = .loopTrim (⌊(60 : Rat) / d⌋ + 1) 60) ∧
    (30 < d ∧ d < 60 →
      (m = "repeat" → render_video_ffmpeg d m = .loopTrim (⌊(60 : Rat) / d⌋ + 1) 60) ∧
      (m ≠ "repeat" → render_video_ffmpeg d m = .slowStretch (d / 61) 61)) ∧
    (300 < d → render_video_ffmpeg d m = .trimOnly 300) := by
  refine ⟨?_, ?_, ?_, ?_⟩
  · rintro ⟨h1, h2⟩
    unfold render_video_ffmpeg
    rw [if_pos ⟨h1, h2⟩]
  · intro h
    unfold render_video_ffmpeg
    rw [if_neg (by rintro ⟨h1, _⟩; linarith), if_pos h]
  · rintro ⟨h1, h2⟩
    constructor
    · intro hm
      unfold render_video_ffmpeg
      rw [if_neg (by rintro ⟨h3, _⟩; linarith), if_neg (by linarith),
        if_pos ⟨h1, h2⟩, if_pos hm]
    · intro hm
      unfold render_video_ffmpeg
      rw [if_neg (by rintro ⟨h3, _⟩; linarith), if_neg (by linarith),
        if_pos ⟨h1, h2⟩, if_neg hm]
  · intro h
    unfold render_video_ffmpeg
    rw [if_neg (by rintro ⟨_, h2⟩; linarith), if_neg (by linarith),
      if_neg (by rintro ⟨_, h2⟩; linarith)]

/-- Witness for C4 at the spec's boundary durations: 60.0 and 300.0 pass
through, 59.999 loop-trims with 2 loops, 300.001 trims to 300s. -/
theorem render_decision_table_witness :
    (0 : Rat) < 60 ∧
    render_video_ffmpeg 60 "repeat" = .passthrough ∧
    render_video_ffmpeg 300 "speed" = .passthrough ∧
    render_video_ffmpeg (59999 / 1000) "repeat" = .loopTrim 2 60 ∧
    render_video_ffmpeg (300001 / 1000) "repeat" = .trimOnly 300 := by
  have h60 := (render_decision_table 60 "repeat" (by norm_num)).1
    ⟨by norm_num, by norm_num⟩
  have h300 := (render_decision_table 300 "speed" (by norm_num)).1
    ⟨by norm_num, by norm_num⟩
  have h59 := ((render_decision_table (59999 / 1000) "repeat" (by norm_num)).2.2.1
    ⟨by norm_num, by norm_num⟩).1 rfl
  have hf : ⌊(60 : Rat) / (59999 / 1000)⌋ = 1 := by
    rw [Int.floor_eq_iff] <;> norm_num
  rw [hf] at h59
  have h301 := (render_decision_table (300001 / 1000) "repeat" (by norm_num)).2.2.2
    (by norm_num)
  exact ⟨by norm_num, h60, h300, h59, h301⟩

theorem pipeline_post_render_trace (steps : StepFlags) (videoId : String)
    (env : PipelineEnv) (evs : List PEvent) :
    ∃ rest, (pipeline_post_render steps videoId env evs).2.2 = evs ++ rest := by
  unfold pipeline_post_render
  split_ifs
  · exact ⟨[], by simp⟩
  · exact ⟨[PEvent.upload], rfl⟩
  · exact ⟨[PEvent.upload], rfl⟩
  · exact ⟨[], by simp⟩

theorem pipeline_post_download_trace (steps : StepFlags) (videoId : String)
    (env : PipelineEnv) (evs : List PEvent) :
    ∃ rest, (pipeline_post_download steps videoId env evs).2.2 = evs ++ rest := by
  unfold pipeline_post_download
  split_ifs with h1 h2 h3
  · exact ⟨[], by simp⟩
  · exact ⟨[PEvent.render], rfl⟩
  · obtain ⟨r, hr⟩ := pipeline_post_render_trace steps videoId env (evs ++ [.render])
    exact ⟨[PEvent.render] ++ r, by rw [hr, List.append_assoc]⟩
  · exact pipeline_post_render_trace steps videoId env evs

/-- **C5.** In `process_video_pipeline` with the download step enabled, the
ProcessedMarker file `log/<channel>` is written with the video id before the
download step runs; if the download step fails, the marker is deleted before
the pipeline returns false; if the render step or the upload step fails, the
marker is left in place unchanged (still holding the video id). -/
theorem processed_marker_lifecycle (inp : Option StepsInput) (videoId : String)
    (env : PipelineEnv)
    (hdl : (sanitize_pipeline_steps inp).download = true) :
    ((process_video_pipeline inp videoId env).2.2.take 2 =
      [PEvent.writeMarker videoId, PEvent.download]) ∧
    (env.downloadOk = false →
      process_video_pipeline inp videoId env =
        (false, none, [.writeMarker videoId, .download, .deleteMarker])) ∧
    (env.downloadOk = true → env.cancelAfterDownload = false →
      (sanitize_pipeline_steps inp).render = true → env.renderResult = some false →
      (process_video_pipeline inp videoId env).1 = false ∧
      (process_video_pipeline inp videoId env).2.1 = some videoId) ∧
    (env.downloadOk = true → env.cancelAfterDownload = false →
      ((sanitize_pipeline_steps inp).render = true → env.renderResult ≠ some false) →
      env.cancelBeforeUpload = false →
      (sanitize_pipeline_steps inp).upload = true → env.uploadOk = false →
      (process_video_pipeline inp videoId env).1 = false ∧
      (process_video_pipeline inp videoId env).2.1 = some videoId) := by
  refine ⟨?_, ?_, ?_, ?_⟩
  · cases hdo : env.downloadOk
    · simp [process_video_pipeline, hdl, hdo]
    · obtain ⟨r, hr⟩ := pipeline_post_download_trace (sanitize_pipeline_steps inp)
        videoId env ([PEvent.writeMarker videoId] ++ [PEvent.download])
      simp only [process_video_pipeline, hdl, hdo]
      simp only [List.singleton_append] at hr
      simp [hr]
  · intro hdo
    simp [process_video_pipeline, hdl, hdo]
  · intro hdo hc1 hren hrf
    simp [process_video_pipeline, pipeline_post_download, hdl, hdo, hc1, hren, hrf]
  · intro hdo hc1 hrnf hc2 hup huok
    cases hren : (sanitize_pipeline_steps inp).render
    · simp [process_video_pipeline, pipeline_post_download, pipeline_post_render,
        hdl, hdo, hc1, hren, hc2, hup, huok]
    · have hne : ¬ env.renderResult = some false := hrnf hren
      simp [process_video_pipeline, pipeline_post_download, pipeline_post_render,
        hdl, hdo, hc1, hren, hne, hc2, hup, huok]

/-- Witness for C5: with every stage enabled and a failing download
(`envDownloadFail`), the run returns false, the marker is deleted, and the
trace shows write-marker before download before delete-marker. -/
theorem processed_marker_lifecycle_witness :
    (sanitize_pipeline_steps (some allDefaultInput)).download = true ∧
    process_video_pipeline (some allDefaultInput) "vid123" envDownloadFail =
      (false, none, [.writeMarker ("vid123"), .download, .deleteMarker]) := by
  have h := processed_marker_lifecycle (some allDefaultInput) "vid123"
    envDownloadFail (by decide)
  exact ⟨by decide, h.2.1 rfl⟩

/-- **C10 counterexample.** The claim's example input `{"download": false}`
does not disable all of download, render and upload: sanitization leaves
`upload` at its default `true`, which forces `download` and `render` back to
`true`. -/
theorem pipeline_skip_example_counterexample :
    (sanitize_pipeline_steps (some downloadOffInput)).download = true ∧
    ¬ ((sanitize_pipeline_steps (some downloadOffInput)).download = false ∧
       (sanitize_pipeline_steps (some downloadOffInput)).render = false ∧
       (sanitize_pipeline_steps (some downloadOffInput)).upload = false) := by
  decide

/-- **C10 (amended).** If the sanitized step set disables all of download,
render, and upload (for example, input
`{"download": false, "render": false, "upload": false}`),
`process_video_pipeline` returns true immediately and has no effect on the
ProcessedMarker file `log/<channel>`: the marker is neither written, modified,
nor deleted, because the early return precedes the marker write. -/
theorem pipeline_skip_when_all_disabled (inp : Option StepsInput)
    (videoId : String) (env : PipelineEnv)
    (h : (sanitize_pipeline_steps inp).download = false ∧
      (sanitize_pipeline_steps inp).render = false ∧
      (sanitize_pipeline_steps inp).upload = false) :
    process_video_pipeline inp videoId env = (true, env.marker0, []) := by
  obtain ⟨h1, h2, h3⟩ := h
  simp [process_video_pipeline, h1, h2, h3]

/-- Witness for C10: explicitly disabling download, render and upload makes
the run return true with the old marker content untouched and an empty
event trace. -/
theorem pipeline_skip_when_all_disabled_witness :
    ((sanitize_pipeline_steps (some allOffInput)).download = false ∧
     (sanitize_pipeline_steps (some allOffInput)).render = false ∧
     (sanitize_pipeline_steps (some allOffInput)).upload = false) ∧
    process_video_pipeline (some allOffInput) "vid" envDownloadFail =
      (true, some ("old"), []) := by
  have h := pipeline_skip_when_all_disabled (some allOffInput) "vid"
    envDownloadFail (by decide)
  exact ⟨by decide, h⟩

theorem make_request_eq (att : Nat → Bool) (jit : Nat → Rat) :
    make_request att jit =
      (att 0 || att 1 || att 2,
       if att 0 then []
       else if att 1 then [2 ^ 0 + jit 0]
       else [2 ^ 0 + jit 0, 2 ^ 1 + jit 1]) := by
  cases h0 : att 0 <;> cases h1 : att 1 <;> cases h2 : att 2 <;>
    simp [make_request, make_request_go, h0, h1, h2]

theorem find?_ext {p q : String → Bool} (h : ∀ s, p s = q s) (l : List String) :
    l.find? p = l.find? q := by
  have hpq : p = q := funext h
  rw [hpq]

theorem fetch_sequential_spec (att : String → Nat → Bool)
    (jit : String → Nat → Rat) (val : String → Nat) (keys : List String) :
    ∀ failed : List String,
      (∀ k ∈ failed, k ∉ (fetch_sequential att jit val keys failed).2.2) ∧
      (fetch_sequential att jit val keys failed).2.2.Nodup ∧
      (fetch_sequential att jit val keys failed).2.1 =
        failed ++ (fetch_sequential att jit val keys failed).2.2.filter
          (fun k => !(make_request (att k) (jit k)).1) ∧
      (fetch_sequential att jit val keys failed).1 =
        (match (keys.map String.trim).find? (seqPred att jit failed) with
         | some k => Except.ok (val k)
         | none => Except.error (fetch_sequential att jit val keys failed).2.1) := by
  induction keys with
  | nil =>
    intro failed
    simp [fetch_sequential]
  | cons k rest ih =>
    intro failed
    by_cases hmem : k.trim ∈ failed
    · have hpred : seqPred att jit failed k.trim = false := by
        simp [seqPred, hmem]
      have hfe : fetch_sequential att jit val (k :: rest) failed =
          fetch_sequential att jit val rest failed := by
        simp [fetch_sequential, hmem]
      have hrec := ih failed
      rw [hfe, List.map_cons, List.find?_cons_of_neg _ (by simp [hpred])]
      exact hrec
    · by_cases hok : (make_request (att k.trim) (jit k.trim)).1 = true
      · have hpred : seqPred att jit failed k.trim = true := by
          simp [seqPred, hmem, hok]
        have hfe : fetch_sequential att jit val (k :: rest) failed =
            (.ok (val k.trim), failed, [k.trim]) := by
          simp [fetch_sequential, hmem, hok]
        rw [hfe, List.map_cons, List.find?_cons_of_pos _ hpred]
        refine ⟨?_, by simp, by simp [hok], by simp⟩
        intro x hx
        simp only [List.mem_singleton]
        rintro rfl
        exact hmem hx
      · have hok' : (make_request (att k.trim) (jit k.trim)).1 = false := by
          cases h : (make_request (att k.trim) (jit k.trim)).1
          · rfl
          · exact absurd h hok
        have hpred : seqPred att jit failed k.trim = false := by
          simp [seqPred, hmem, hok']
        have hrec := ih (failed ++ [k.trim])
        have hfe : fetch_sequential att jit val (k :: rest) failed =
            ((fetch_sequential att jit val rest (failed ++ [k.trim])).1,
             (fetch_sequential att jit val rest (failed ++ [k.trim])).2.1,
             k.trim :: (fetch_sequential att jit val rest (failed ++ [k.trim])).2.2) := by
          simp [fetch_sequential, hmem, hok']
        have hcong : ∀ s, seqPred att jit failed s =
            seqPred att jit (failed ++ [k.trim]) s := by
          intro s
          by_cases hs : s = k.trim
          · subst hs
            simp [seqPred, hmem, hok']
          · simp [seqPred, List.mem_append, hs]
        rw [hfe, List.map_cons, List.find?_cons_of_neg _ (by simp [hpred]),
          find?_ext hcong]
        refine ⟨?_, ?_, ?_, hrec.2.2.2⟩
        · intro x hx
          simp only [List.mem_cons, not_or]
          constructor
          · rintro rfl
            exact hmem hx
          · exact hrec.1 x (List.mem_append_left _ hx)
        · simp only [List.nodup_cons]
          exact ⟨hrec.1 k.trim (by simp), hrec.2.1⟩
        · rw [hrec.2.2.1, List.filter_cons]
          simp [hok']

/-- **C7.** In sequential mode, for every key list and every prior state of
the process-wide failed-key set, `fetch_youtube_activities` never issues a
request using a key already in the failed-key set; a key whose request fails
(after 3 attempts with `2 ^ retry + rand(0, 0.1)` seconds between attempts)
is added to the failed-key set at most once; keys are tried in list order and
the first key whose request succeeds determines the returned result; if no
key works, the call raises an error rather than returning. -/
theorem credential_pool_sequential (att : String → Nat → Bool)
    (jit : String → Nat → Rat) (val : String → Nat) (keys : List String)
    (failed : List String) (hnd : failed.Nodup) :
    (∀ k ∈ failed, k ∉ (fetch_sequential att jit val keys failed).2.2) ∧
    (fetch_sequential att jit val keys failed).2.2.Nodup ∧
    (fetch_sequential att jit val keys failed).2.1.Nodup ∧
    ((fetch_sequential att jit val keys failed).1 =
      match (keys.map String.trim).find? (seqPred att jit failed) with
      | some k => Except.ok (val k)
      | none => Except.error (fetch_sequential att jit val keys failed).2.1) ∧
    (∀ (a : Nat → Bool) (j : Nat → Rat), make_request a j =
      (a 0 || a 1 || a 2,
       if a 0 then []
       else if a 1 then [2 ^ 0 + j 0]
       else [2 ^ 0 + j 0, 2 ^ 1 + j 1])) := by
  have hs := fetch_sequential_spec att jit val keys failed
  refine ⟨hs.1, hs.2.1, ?_, hs.2.2.2, fun a j => make_request_eq a j⟩
  rw [hs.2.2.1]
  refine List.Nodup.append hnd (hs.2.1.filter _) ?_
  intro x hx hx2
  exact hs.1 x hx (List.mem_of_mem_filter hx2)

/-- Witness for C7 on keys `["a", "b"]` with an empty failed set: no tried
key was in the failed set, no key is tried twice, the final failed set has no
duplicates, and a request that fails all three attempts sleeps
`2^0 + jitter` then `2^1 + jitter` seconds. -/
theorem credential_pool_sequential_witness :
    ([] : List String).Nodup ∧
    (∀ k ∈ ([] : List String),
      k ∉ (fetch_sequential (fun k _ => k == "b") (fun _ _ => 0) (fun _ => 7)
        ["a", "b"] []).2.2) ∧
    (fetch_sequential (fun k _ => k == "b") (fun _ _ => 0) (fun _ => 7)
      ["a", "b"] []).2.2.Nodup ∧
    (fetch_sequential (fun k _ => k == "b") (fun _ _ => 0) (fun _ => 7)
      ["a", "b"] []).2.1.Nodup ∧
    make_request (fun _ => false) (fun _ => 0) = (false, [1, 2]) := by
  have h := credential_pool_sequential (fun k _ => k == "b") (fun _ _ => 0)
    (fun _ => 7) ["a", "b"] [] (by decide)
  refine ⟨by decide, h.1, h.2.1, h.2.2.1, ?_⟩
  rw [h.2.2.2.2 (fun _ => false) (fun _ => 0)]
  norm_num
